import Mathlib

/-!
Verification development for the `bevy_replicon_lockstep` crate: a shallow
embedding of the core lockstep-coordinator code (command pipeline, tick
advancer, session state machine, membership readiness, command-type
registry, and the wire codec) together with theorems settling the spec
claims against it.

Conventions of the embedding:
* Rust `u64`/`u32` counters (`ClientId`, `SimTick`) are modelled as `Nat`;
  wrap-around of tick arithmetic is out of scope per the spec, while the
  explicit truncating casts in the source (`as u8`, `as u16`) are modelled
  with `% 256` / `% 65536`.
* `f64` RTT values are modelled as `ℚ` (the code only feeds them through
  division by 2 and `ceil`, which is exact on the rationals involved).
* `hashbrown::HashMap` is modelled as an association list with
  overwrite-on-insert (`AssocMap`); where the source iterates a hash map
  in its unspecified iteration order, the model takes that iteration
  sequence as an explicit list.
* Bevy ECS plumbing (queries, triggers, observers) is modelled by passing
  the queried data in as arguments and returning the emitted events.
-/

/-- `pub type SimTick = u32` (simulation.rs). -/
abbrev SimTick := Nat

/-- `pub type ClientId = u64` (connections.rs). -/
abbrev ClientId := Nat

/-- Association-list model of `hashbrown::HashMap`.  `insert` overwrites an
existing binding, so the key set stays duplicate-free and `size` is the
number of distinct keys, matching hash-map semantics. -/
abbrev AssocMap (α β : Type) : Type := List (α × β)

namespace AssocMap

/-- The empty map (`HashMap::new` / `Default::default`). -/
def empty {α β : Type} : AssocMap α β := []

/-- `HashMap::get`. -/
def find? {α β : Type} [DecidableEq α] : AssocMap α β → α → Option β
  | [], _ => none
  | p :: rest, k => if p.1 = k then some p.2 else find? rest k

/-- `HashMap::contains_key`. -/
def containsKey {α β : Type} [DecidableEq α] (m : AssocMap α β) (k : α) : Bool :=
  (find? m k).isSome

/-- `HashMap::insert`: overwrite any existing binding for the key. -/
def insert {α β : Type} [DecidableEq α] (m : AssocMap α β) (k : α) (v : β) :
    AssocMap α β :=
  (k, v) :: m.filter (fun p => decide (p.1 ≠ k))

/-- `HashMap::len` (number of entries). -/
def size {α β : Type} (m : AssocMap α β) : Nat := m.length

end AssocMap

/-- `SimulationState` (simulation.rs): lifecycle states of the session. -/
inductive SimulationState where
  | None
  | Connecting
  | Setup
  | Starting
  | Running
  | Reconnecting
  | Paused
  | Ending
deriving DecidableEq, Repr

/-- `SimulationSettings` (simulation.rs).  `tick_timestep` is the duration
of one tick in seconds, as a rational. -/
structure SimulationSettings where
  tick_timestep : ℚ
  num_players : Nat
  base_input_tick_delay : Nat
  connection_check_tick_delay : Nat
  disconnect_tick_threshold : Nat

/-- `impl Default for SimulationSettings` (simulation.rs). -/
def SimulationSettings.default : SimulationSettings :=
  { tick_timestep := 33 / 1000
    num_players := 8
    base_input_tick_delay := 1
    connection_check_tick_delay := 1
    disconnect_tick_threshold := 20 }

/-- `LockstepCommand` (commands.rs).  The `then` field is a boxed nested
command (`thenCmd` here, since `then` is a Lean keyword); `Vec3` is three
rationals; `Entity` ids are naturals. -/
inductive LockstepCommand where
  | mk (command_type_id : Nat) (entities : Option (List Nat))
      (thenCmd : Option LockstepCommand)
      (target_vector : Option (ℚ × ℚ × ℚ)) (target_entity : Option Nat)

/-- `pub type LockstepClientCommands = HashMap<ClientId, Option<Vec<LockstepCommand>>>`
(commands.rs). -/
abbrev LockstepClientCommands := AssocMap ClientId (Option (List LockstepCommand))

/-- `ClientSendCommands` (commands.rs): a client's per-tick submission. -/
structure ClientSendCommands where
  commands : Option (List LockstepCommand)
  issued_tick : SimTick

/-- `ClientSendCommands::default()`. -/
def ClientSendCommands.default : ClientSendCommands :=
  { commands := none, issued_tick := 0 }

/-- `ServerSendCommands` as defined in commands.rs (the per-submission
broadcast variant carrying `execute_tick` and `client_id`).  The frozen
source also contains an older variant of the same name carrying a whole
bundle plus `tick`, used by simulation.rs and serialization.rs; that one
is embedded below as `ServerSendCommandsMsg`. -/
structure ServerSendCommandsEvt where
  commands : Option (List LockstepCommand)
  execute_tick : SimTick
  client_id : ClientId

/-- `LockstepGameCommandsReceived` (commands.rs): server-side map from a
client's issued tick to the per-client submissions at that tick. -/
abbrev LockstepGameCommandsReceived := AssocMap SimTick LockstepClientCommands

/-- `LockstepGameCommandBuffer` as used by `receive_commands_client`
(commands.rs): map from execute tick to per-client command lists. -/
abbrev LockstepGameCommandBuffer := AssocMap SimTick LockstepClientCommands

/-- The per-sender tick delay computed in `receive_commands_server`
(commands.rs line 184):
`stats.get(client_entity).map_or(3, |s| (s.rtt / 2.0).ceil() as SimTick)`.
`rtt` is the transport round-trip time in seconds; `none` models a sender
entity with no `NetworkStats` component (the host-local pseudo-peer). -/
def rtt_tick_delay : Option ℚ → SimTick
  | none => 3
  | some rtt => (Int.ceil (rtt / 2)).toNat

/-- The execute tick assigned in `receive_commands_server` (commands.rs
line 187): `issued_tick + tick_delay + base_input_tick_delay`. -/
def execution_tick (issued_tick : SimTick) (stats : Option ℚ)
    (settings : SimulationSettings) : SimTick :=
  issued_tick + rtt_tick_delay stats + settings.base_input_tick_delay

/-- `receive_commands_server` (commands.rs lines 162-197).
`sender_id` is `clients.get(trigger.client_entity)` (the sender's
`NetworkId`, absent for the self-sent host event, in which case the code
falls back to client id 1); `sender_stats` is
`stats.get(trigger.client_entity)` (the sender's RTT, absent for the
host).  Returns the updated received-log and the broadcast event. -/
def receive_commands_server (ev : ClientSendCommands)
    (sender_id : Option ClientId) (sender_stats : Option ℚ)
    (settings : SimulationSettings)
    (history : LockstepGameCommandsReceived) :
    LockstepGameCommandsReceived × ServerSendCommandsEvt :=
  let client_id := sender_id.getD 1
  let tick := ev.issued_tick
  let entry := (AssocMap.find? history tick).getD AssocMap.empty
  let history2 := AssocMap.insert history tick
    (AssocMap.insert entry client_id ev.commands)
  let exec := execution_tick tick sender_stats settings
  (history2,
    { execute_tick := exec, commands := ev.commands, client_id := client_id })

/-- `receive_commands_client` (commands.rs lines 200-210): store the
broadcast commands in the client command buffer under the execute tick
and the issuing client id. -/
def receive_commands_client (ev : ServerSendCommandsEvt)
    (game_commands : LockstepGameCommandBuffer) : LockstepGameCommandBuffer :=
  let entry := (AssocMap.find? game_commands ev.execute_tick).getD AssocMap.empty
  AssocMap.insert game_commands ev.execute_tick
    (AssocMap.insert entry ev.client_id ev.commands)

/-- The execute-tick formula exactly as the spec states it (comparison
definition for claim C1, written from the spec sentence, not from the
code): `current_host_tick + ceil((rtt_seconds/2) / tick_timestep_seconds)
+ base_input_tick_delay`. -/
def spec_execute_tick (current_host_tick : SimTick) (rtt : ℚ)
    (settings : SimulationSettings) : SimTick :=
  current_host_tick + (Int.ceil (rtt / 2 / settings.tick_timestep)).toNat +
    settings.base_input_tick_delay

/-- The settings of the spec's literal scenarios (spec section 8):
33 ms timestep, 2 players, base delay 1, connection check delay 1,
disconnect threshold 20. -/
def scenario_settings : SimulationSettings :=
  { tick_timestep := 33 / 1000
    num_players := 2
    base_input_tick_delay := 1
    connection_check_tick_delay := 1
    disconnect_tick_threshold := 20 }

/-- Settings with a zero jitter buffer, used to probe claim C5. -/
def zero_delay_settings : SimulationSettings :=
  { tick_timestep := 33 / 1000
    num_players := 2
    base_input_tick_delay := 0
    connection_check_tick_delay := 1
    disconnect_tick_threshold := 20 }

/-- A concrete command value (type id 0, no payload fields). -/
def cmdX : LockstepCommand := LockstepCommand.mk 0 none none none none

/-- simulation.rs and serialization.rs variant of `ServerSendCommands`: a
whole per-client bundle plus the tick it belongs to (the frozen source
contains this shape in those two files and the per-submission
`ServerSendCommandsEvt` shape in commands.rs). -/
structure ServerSendCommandsMsg where
  commands : LockstepClientCommands
  tick : SimTick

/-- `stats.iter().max_by(|a, b| a.rtt.partial_cmp(&b.rtt).unwrap())`
(simulation.rs lines 224-227): maximum RTT of the connected clients.
Defined as 0 on the empty list; `tick_server` only evaluates it when the
list is nonempty. -/
def max_rtt : List ℚ → ℚ
  | [] => 0
  | x :: xs => xs.foldl max x

/-- The liveness lookback computed at the top of `tick_server`
(simulation.rs lines 215-229): 0 when no client has `NetworkStats`, else
`(max_rtt / 2.0).ceil() as u32 + connection_check_tick_delay`. -/
def server_tick_delay (stats : List ℚ) (settings : SimulationSettings) : Nat :=
  if 0 < stats.length then
    (Int.ceil (max_rtt stats / 2)).toNat + settings.connection_check_tick_delay
  else 0

/-- `tick_to_check` (simulation.rs lines 230-235): saturating
`sim_tick - tick_delay`. -/
def tick_to_check (sim_tick : SimTick) (tick_delay : Nat) : SimTick :=
  if tick_delay > sim_tick then 0 else sim_tick - tick_delay

/-- `Vec::resize(new_len, value)`: pad with copies of `value`, or truncate
when the vector is already longer. -/
def vec_resize {α : Type} (v : List α) (new_len : Nat) (value : α) : List α :=
  if v.length ≤ new_len then v ++ List.replicate (new_len - v.length) value
  else v.take new_len

/-- The data `tick_server` (simulation.rs lines 204-270) reads and writes:
the `Local<u8>` disconnect timer, the `SimulationTick`, the connected
clients (`Query<&NetworkId>`), their stats (`Query<&NetworkStats>`, one
RTT per client entity that has stats), both logs, and the settings. -/
structure ServerTickState where
  disconnect_timer : Nat
  sim_tick : SimTick
  clients : List ClientId
  stats : List ℚ
  commands_received : LockstepGameCommandsReceived
  command_history : List LockstepClientCommands
  settings : SimulationSettings

/-- The outputs of one `tick_server` run: the broadcast (if the tick
advanced), the requested next state (if pausing), and the
`ClientDisconnect` triggers. -/
structure ServerTickOut where
  broadcast : Option ServerSendCommandsMsg
  next_state : Option SimulationState
  disconnects : List ClientId

/-- `tick_server` (simulation.rs lines 204-270), one scheduler step in the
`Running` state. -/
def tick_server (st : ServerTickState) : ServerTickState × ServerTickOut :=
  let tick_delay := server_tick_delay st.stats st.settings
  let check := tick_to_check st.sim_tick tick_delay
  match AssocMap.find? st.commands_received check with
  | none => (st, ⟨none, none, []⟩)
  | some clients_for_tick =>
    if AssocMap.size clients_for_tick = st.clients.length then
      let new_tick := st.sim_tick + 1
      match st.command_history.get? new_tick with
      | some tick_commands =>
          ({ st with sim_tick := new_tick, disconnect_timer := 0 },
            ⟨some ⟨tick_commands, new_tick⟩, none, []⟩)
      | none =>
          let history2 :=
            if st.command_history.length ≤ new_tick then
              vec_resize st.command_history new_tick AssocMap.empty
            else st.command_history
          ({ st with
              sim_tick := new_tick
              disconnect_timer := 0
              command_history := history2 },
            ⟨some ⟨AssocMap.empty, new_tick⟩, none, []⟩)
    else
      let timer2 := st.disconnect_timer + 1
      if timer2 > st.settings.disconnect_tick_threshold then
        ({ st with disconnect_timer := 0 },
          ⟨none, some SimulationState.Paused,
            ((clients_for_tick.filter
                (fun p => !(AssocMap.containsKey clients_for_tick p.1))).map
              (fun p => p.1))⟩)
      else ({ st with disconnect_timer := timer2 }, ⟨none, none, []⟩)

/-- The gate rule exactly as the spec states it (comparison definition for
claim C2, written from the spec sentences, not from the code):
`Δ = ceil(max_peer_rtt/2 / tick_timestep) + connection_check_tick_delay`,
`T_check = max(0, current_host_tick − Δ)` (truncated subtraction), and the
gate holds iff `received-log[T_check]` has an entry for every currently
connected peer. -/
def spec_gate (st : ServerTickState) : Prop :=
  let delta := (Int.ceil (max_rtt st.stats / 2 / st.settings.tick_timestep)).toNat +
    st.settings.connection_check_tick_delay
  let t_check := st.sim_tick - delta
  ∀ c ∈ st.clients,
    AssocMap.containsKey
      ((AssocMap.find? st.commands_received t_check).getD AssocMap.empty) c = true

/-- C2 counterexample input: one connected peer with id 2 and RTT 100 ms,
host tick 10, scenario settings; the received-log has a full entry at
tick 8 (the code's check tick) and nothing at tick 7 (the spec formula's
check tick). -/
def c2_gate_state : ServerTickState :=
  { disconnect_timer := 0
    sim_tick := 10
    clients := [2]
    stats := [1 / 10]
    commands_received := [(8, [(2, none)])]
    command_history := []
    settings := scenario_settings }

/-- C3 failing input: peers 1 and 2 connected (RTT 100 ms), host tick 10,
scenario settings (threshold 20), the disconnect timer already at 20, and
the received-log entry at the checked tick 8 containing only peer 1 —
peer 2 is the absent peer that should be reported. -/
def c3_pause_state : ServerTickState :=
  { disconnect_timer := 20
    sim_tick := 10
    clients := [1, 2]
    stats := [1 / 10]
    commands_received := [(8, [(1, none)])]
    command_history := []
    settings := scenario_settings }

/-- The data `tick_client` (simulation.rs lines 184-201) reads and
writes. -/
structure ClientTickState where
  sim_tick : SimTick
  command_history : List LockstepClientCommands

/-- `tick_client` (simulation.rs lines 184-201): ingest a broadcast tick on
a peer.  Returns the new state and the emitted `SimulationTickUpdate`
events, or the panic message on an out-of-order tick.  When the local
process is the server the install/advance block is skipped and only the
event is emitted. -/
def tick_client (server_running : Bool) (ev : ServerSendCommandsMsg)
    (st : ClientTickState) : Except String (ClientTickState × List SimTick) :=
  if server_running then Except.ok (st, [ev.tick])
  else
    let history2 := vec_resize st.command_history (ev.tick + 1) ev.commands
    if ev.tick = st.sim_tick + 1 ∨ st.sim_tick = 0 then
      Except.ok ({ sim_tick := ev.tick, command_history := history2 }, [ev.tick])
    else Except.error "Received ticks out of order"

/-- The resources touched by `setup_simulation` (simulation.rs lines
112-123): the tick, both command logs, the `SimulationIdEntityMap`, and the
`SIMULATION_ID_COUNTER` atomic. -/
structure SimResources where
  sim_tick : SimTick
  command_history : LockstepGameCommandBuffer
  commands_received : LockstepGameCommandsReceived
  id_entity_map : AssocMap Nat Nat
  simulation_id_counter : Nat

/-- Events emitted by the state-enter systems. -/
inductive SimOutEvent where
  | setState (s : SimulationState)
  | clientSendCommands (ev : ClientSendCommands)

/-- `setup_simulation` (simulation.rs lines 112-123), registered at
`OnEnter(SimulationState::Setup)`: reset the tick to 0, clear both logs
and the id-entity map, and store 1 into the simulation-id counter. -/
def setup_simulation (_r : SimResources) : SimResources :=
  { sim_tick := 0
    command_history := AssocMap.empty
    commands_received := AssocMap.empty
    id_entity_map := AssocMap.empty
    simulation_id_counter := 1 }

/-- `start_simulation` (simulation.rs lines 125-139), registered at
`OnEnter(SimulationState::Starting)`: when the server is running,
broadcast `SetSimulationState(Running)` (it also strips the `ClientReady`
markers, which no claim mentions). -/
def start_simulation (server_running : Bool) : List SimOutEvent :=
  if server_running then [SimOutEvent.setState SimulationState.Running] else []

/-- `send_initial_commands_to_server` (commands.rs lines 131-136),
registered at `OnEnter(SimulationState::Running)`: eagerly submit an empty
`ClientSendCommands::default()`. -/
def send_initial_commands_to_server : List SimOutEvent :=
  [SimOutEvent.clientSendCommands ClientSendCommands.default]

/-- The `OnEnter` system registrations of the two plugins
(simulation.rs lines 18-19, commands.rs line 17): what runs, and on which
resources, when each state is entered. -/
def on_enter_state (s : SimulationState) (server_running : Bool)
    (r : SimResources) : SimResources × List SimOutEvent :=
  match s with
  | SimulationState.Setup => (setup_simulation r, [])
  | SimulationState.Starting => (r, start_simulation server_running)
  | SimulationState.Running => (r, send_initial_commands_to_server)
  | _ => (r, [])

/-- C8 probe input: resources mid-session (tick 5, nonempty logs,
counter 7). -/
def c8_resources : SimResources :=
  { sim_tick := 5
    command_history := [(3, [(1, some [cmdX])])]
    commands_received := [(2, [(1, none)])]
    id_entity_map := [(1, 4)]
    simulation_id_counter := 7 }

/-- `check_all_clients_ready` (connections.rs lines 225-240), one
`FixedPreUpdate` step in the `Setup` state on the host.  `peers` is the
connected peer entities as (NetworkId, has-ClientReady-marker) pairs.
Panics when the peer count no longer matches `num_players`; broadcasts
`SetSimulationState(Starting)` when no peer lacks the ready marker. -/
def check_all_clients_ready (num_players : Nat)
    (peers : List (ClientId × Bool)) : Except String (List SimOutEvent) :=
  if peers.length ≠ num_players then
    Except.error "Player(s) disconnected during setup phase.  Need to handle this."
  else if peers.all (fun p => p.2) then
    Except.ok [SimOutEvent.setState SimulationState.Starting]
  else Except.ok []

/-- The scheduler loop while the session sits in `Setup` with a fixed peer
roster: `check_all_clients_ready` runs every step, and the state changes
only when it broadcasts a `SetState` event (which
`handle_sim_state_change` adopts). -/
def setup_phase_state (num_players : Nat) (peers : List (ClientId × Bool)) :
    Nat → SimulationState
  | 0 => SimulationState.Setup
  | n + 1 =>
    match setup_phase_state num_players peers n with
    | SimulationState.Setup =>
      match check_all_clients_ready num_players peers with
      | Except.ok (SimOutEvent.setState s :: _) => s
      | _ => SimulationState.Setup
    | s => s

/-- C9 scenario roster: three connected peers, peer 3 withholding
`ClientReady` forever. -/
def withholding_peers : List (ClientId × Bool) := [(1, true), (2, true), (3, false)]

/-- Opaque reflect-serialized command payload: serialization.rs treats
each command as `Box<dyn PartialReflect>` and the `ReflectSerializer` /
`ReflectDeserializer` pair as an opaque self-delimiting encoding, modelled
here as an opaque byte list carried verbatim. -/
abbrev ReflectCommand := List Nat

/-- One wire item written by the postcard serializer in serialization.rs:
the four integer widths the codec writes, plus one reflect-encoded
command. -/
inductive WireTok where
  | u8 (n : Nat)
  | u16 (n : Nat)
  | u64 (n : Nat)
  | u32 (n : Nat)
  | reflectPayload (p : ReflectCommand)
deriving DecidableEq, Repr

/-- serialization.rs view of `ServerSendCommands`: the bundle as the hash
map's iteration sequence (the order `event.commands.iter()` yields, which
hashbrown leaves unspecified) plus the tick. -/
structure ServerSendCommandsWire where
  commands : List (ClientId × List ReflectCommand)
  tick : SimTick
deriving DecidableEq, Repr

/-- `serialize_server_send_commands` (serialization.rs lines 58-77):
`u8 peer_count; repeat { u64 peer_id; u16 cmd_count; cmd_frames }; u32
tick`, with the `as u8` / `as u16` truncating casts, iterating the bundle
in the map's iteration order. -/
def serialize_server_send_commands (event : ServerSendCommandsWire) :
    List WireTok :=
  WireTok.u8 (event.commands.length % 256)
    :: (event.commands.flatMap fun p =>
        WireTok.u64 p.1 :: WireTok.u16 (p.2.length % 65536)
          :: p.2.map WireTok.reflectPayload)
    ++ [WireTok.u32 event.tick]

/-- Read one u8 item from the stream. -/
def read_u8 : List WireTok → Option (Nat × List WireTok)
  | WireTok.u8 n :: rest => some (n, rest)
  | _ => none

/-- Read one u16 item from the stream. -/
def read_u16 : List WireTok → Option (Nat × List WireTok)
  | WireTok.u16 n :: rest => some (n, rest)
  | _ => none

/-- Read one u64 item from the stream. -/
def read_u64 : List WireTok → Option (Nat × List WireTok)
  | WireTok.u64 n :: rest => some (n, rest)
  | _ => none

/-- Read one u32 item from the stream. -/
def read_u32 : List WireTok → Option (Nat × List WireTok)
  | WireTok.u32 n :: rest => some (n, rest)
  | _ => none

/-- The inner command loop of `deserialize_server_send_commands`
(serialization.rs lines 90-98): read `num_commands` reflect frames. -/
def read_reflect_commands : Nat → List WireTok →
    Option (List ReflectCommand × List WireTok)
  | 0, toks => some ([], toks)
  | n + 1, WireTok.reflectPayload p :: rest =>
    match read_reflect_commands n rest with
    | some (ps, rest2) => some (p :: ps, rest2)
    | none => none
  | _ + 1, _ => none

/-- The outer client loop of `deserialize_server_send_commands`
(serialization.rs lines 86-100): read `num_clients` entries of
`u64 peer_id; u16 cmd_count; cmd_frames`.  The source inserts them into a
fresh hash map; the model keeps the insertion sequence. -/
def read_client_entries : Nat → List WireTok →
    Option (List (ClientId × List ReflectCommand) × List WireTok)
  | 0, toks => some ([], toks)
  | n + 1, toks =>
    match read_u64 toks with
    | none => none
    | some (cid, r1) =>
      match read_u16 r1 with
      | none => none
      | some (m, r2) =>
        match read_reflect_commands m r2 with
        | none => none
        | some (cmds, r3) =>
          match read_client_entries n r3 with
          | none => none
          | some (entries, r4) => some ((cid, cmds) :: entries, r4)

/-- `deserialize_server_send_commands` (serialization.rs lines 79-103). -/
def deserialize_server_send_commands (message : List WireTok) :
    Option ServerSendCommandsWire :=
  match read_u8 message with
  | none => none
  | some (num_clients, r1) =>
    match read_client_entries num_clients r1 with
    | none => none
    | some (entries, r2) =>
      match read_u32 r2 with
      | none => none
      | some (tick, _) => some { commands := entries, tick := tick }

/-- The peer ids of a serialized bundle frame, in wire order (u64 items
are written only for peer ids). -/
def wire_peer_ids (toks : List WireTok) : List Nat :=
  toks.filterMap fun t =>
    match t with
    | WireTok.u64 n => some n
    | _ => none

/-- C4 counterexample bundle: a two-peer bundle whose hash-map iteration
order is peer 2 before peer 1 (hashbrown leaves the order unspecified, so
this order is a possible run). -/
def c4_bundle : ServerSendCommandsWire :=
  { commands := [(2, []), (1, [[7]])], tick := 9 }

/-- `CommandTypeRegistry` (commands.rs lines 65-69), with ids as naturals
below 2^16 (the source stores `u16`). -/
structure CommandTypeRegistry where
  name_to_id : AssocMap String Nat
  id_to_name : AssocMap Nat String

/-- The loop of `CommandTypeRegistry::new` (commands.rs lines 76-79):
`for (i, name) in command_set.iter().enumerate()`, inserting
`name ↦ i as u16` and `i as u16 ↦ name` into the two maps; the `as u16`
cast is `% 65536`.  `i` is the running enumeration index. -/
def registry_new_loop : Nat → List String → AssocMap String Nat →
    AssocMap Nat String → CommandTypeRegistry
  | _, [], n2i, i2n => ⟨n2i, i2n⟩
  | i, name :: rest, n2i, i2n =>
    registry_new_loop (i + 1) rest
      (AssocMap.insert n2i name (i % 65536))
      (AssocMap.insert i2n (i % 65536) name)

/-- `CommandTypeRegistry::new` (commands.rs lines 72-84).  The argument is
the iteration sequence of the deduplicating `HashSet` built from the
constructor's input: a duplicate-free list holding the distinct command
names in an unspecified order. -/
def CommandTypeRegistry.new (command_set_iter : List String) :
    CommandTypeRegistry :=
  registry_new_loop 0 command_set_iter AssocMap.empty AssocMap.empty

/-- `CommandTypeRegistry::get_id` (commands.rs lines 86-88). -/
def CommandTypeRegistry.get_id (r : CommandTypeRegistry) (name : String) :
    Option Nat :=
  AssocMap.find? r.name_to_id name

/-- `CommandTypeRegistry::get_name` (commands.rs lines 90-92). -/
def CommandTypeRegistry.get_name (r : CommandTypeRegistry) (id : Nat) :
    Option String :=
  AssocMap.find? r.id_to_name id

/-- The i-th name of the C10 counterexample input: a string of i copies of
the character a; all such names are distinct because their lengths
differ. -/
def rep_name (i : Nat) : String := String.mk (List.replicate i 'a')

/-- 65537 distinct names: one more than the number of distinct `u16`
ids. -/
def big_name_list : List String := (List.range 65537).map rep_name

/-- The registry built from the 65537 distinct names. -/
def big_registry : CommandTypeRegistry := CommandTypeRegistry.new big_name_list

/-- Read the command buffer: the entry stored for one client at one tick
(accessor used to state where commands land). -/
def buffer_entry (buf : LockstepGameCommandBuffer) (tick : SimTick)
    (cid : ClientId) : Option (Option (List LockstepCommand)) :=
  AssocMap.find? ((AssocMap.find? buf tick).getD AssocMap.empty) cid

theorem AssocMap.find?_filter_ne {α β : Type} [DecidableEq α]
    (m : AssocMap α β) (k k' : α) (h : k' ≠ k) :
    AssocMap.find? (List.filter (fun p => decide (p.1 ≠ k)) m) k' =
      AssocMap.find? m k' := by
  induction m with
  | nil => rfl
  | cons p rest ih =>
    by_cases hp : p.1 = k
    · have hk : ¬ p.1 = k' := fun e => h ((hp.symm.trans e).symm)
      have hfilter : List.filter (fun q => decide (q.1 ≠ k)) (p :: rest)
          = List.filter (fun q => decide (q.1 ≠ k)) rest := by
        simp [List.filter_cons, hp]
      rw [hfilter, ih, AssocMap.find?, if_neg hk]
    · have hfilter : List.filter (fun q => decide (q.1 ≠ k)) (p :: rest)
          = p :: List.filter (fun q => decide (q.1 ≠ k)) rest := by
        simp [List.filter_cons, hp]
      rw [hfilter, AssocMap.find?, AssocMap.find?, ih]

theorem AssocMap.find?_insert_self {α β : Type} [DecidableEq α]
    (m : AssocMap α β) (k : α) (v : β) :
    AssocMap.find? (AssocMap.insert m k v) k = some v := by
  simp [AssocMap.insert, AssocMap.find?]

theorem AssocMap.find?_insert_ne {α β : Type} [DecidableEq α]
    (m : AssocMap α β) (k : α) (v : β) (k' : α) (h : k' ≠ k) :
    AssocMap.find? (AssocMap.insert m k v) k' = AssocMap.find? m k' := by
  simp only [AssocMap.insert, AssocMap.find?]
  rw [if_neg (fun hk => h hk.symm)]
  exact AssocMap.find?_filter_ne m k k' h

theorem ceil_rtt_tenth_half : Int.ceil ((1:ℚ)/10 / 2) = 1 := by
  rw [Int.ceil_eq_iff]
  norm_num

theorem ceil_rtt_tenth_spec : Int.ceil ((1:ℚ)/10 / 2 / (33/1000)) = 2 := by
  rw [Int.ceil_eq_iff]
  norm_num

theorem rtt_tick_delay_tenth : rtt_tick_delay (some ((1:ℚ)/10)) = 1 := by
  rw [rtt_tick_delay, ceil_rtt_tenth_half]
  rfl

theorem rtt_tick_delay_zero : rtt_tick_delay (some (0:ℚ)) = 0 := by
  rw [rtt_tick_delay]
  norm_num

/-- C1: the claim's execute-tick formula
`current_host_tick + ceil((rtt/2)/tick_timestep) + base_input_tick_delay`
predicts slot 3 for a peer with RTT 100 ms under the 33 ms scenario
settings, but the code (`receive_commands_server`) computes
`issued_tick + ceil(rtt/2) + base_input_tick_delay` — it never divides the
half-RTT by the tick timestep — so the command submitted at issued tick 0
is assigned execute tick 2, lands in broadcast slot 2, and slot 3 stays
empty. -/
theorem c1_counterexample :
    spec_execute_tick 0 ((1:ℚ)/10) scenario_settings = 3 ∧
    (receive_commands_server ⟨some [cmdX], 0⟩ (some 2) (some ((1:ℚ)/10))
        scenario_settings AssocMap.empty).2.execute_tick = 2 ∧
    AssocMap.find?
      (receive_commands_client
        (receive_commands_server ⟨some [cmdX], 0⟩ (some 2) (some ((1:ℚ)/10))
          scenario_settings AssocMap.empty).2 AssocMap.empty) 3 = none ∧
    AssocMap.find?
      (receive_commands_client
        (receive_commands_server ⟨some [cmdX], 0⟩ (some 2) (some ((1:ℚ)/10))
          scenario_settings AssocMap.empty).2 AssocMap.empty) 2
      = some [(2, some [cmdX])] := by
  have hspec : spec_execute_tick 0 ((1:ℚ)/10) scenario_settings = 3 := by
    simp only [spec_execute_tick, scenario_settings]
    rw [ceil_rtt_tenth_spec]
    rfl
  refine ⟨hspec, ?_, ?_, ?_⟩ <;>
  · simp only [receive_commands_server, receive_commands_client,
      execution_tick, rtt_tick_delay_tenth]
    rfl

/-- C1 (amended): for every ClientSendCommands the host receives from a
sender with RTT statistics, the execute tick the code assigns is
`issued_tick + ceil(rtt_seconds/2) + base_input_tick_delay` — based at the
issued tick and without dividing the half-RTT by the tick timestep — and
the broadcast routes the submitted commands into the client-side buffer at
exactly that tick, under the sender's id.  (For RTT = 100 ms and the 33 ms
scenario settings this offset is 1 + 1 = 2, so a command issued at tick 0
is stored in broadcast slot 2, not 3.) -/
theorem c1_amended (ev : ClientSendCommands) (sender : Option ClientId)
    (rtt : ℚ) (s : SimulationSettings)
    (history : LockstepGameCommandsReceived)
    (buffer : LockstepGameCommandBuffer) :
    (receive_commands_server ev sender (some rtt) s history).2.execute_tick
      = ev.issued_tick + (Int.ceil (rtt / 2)).toNat + s.base_input_tick_delay ∧
    buffer_entry
      (receive_commands_client
        (receive_commands_server ev sender (some rtt) s history).2 buffer)
      (ev.issued_tick + (Int.ceil (rtt / 2)).toNat + s.base_input_tick_delay)
      (sender.getD 1)
      = some ev.commands := by
  constructor
  · rfl
  · simp only [receive_commands_server, receive_commands_client, buffer_entry,
      execution_tick, rtt_tick_delay]
    rw [AssocMap.find?_insert_self]
    simp only [Option.getD_some]
    rw [AssocMap.find?_insert_self]

/-- C5 (amended): the execute tick is always at least the issued tick, and
is strictly greater whenever the sum of the RTT-derived delay and
`base_input_tick_delay` is positive (in particular whenever
`base_input_tick_delay ≥ 1`, or for the host fallback delay of 3).  With
RTT = 0 and `base_input_tick_delay = 0` the code assigns
`execute_tick = issued_tick`, so strict inequality does not hold for every
RTT and every settings value. -/
theorem c5_amended (issued : SimTick) (stats : Option ℚ)
    (s : SimulationSettings) :
    issued ≤ execution_tick issued stats s ∧
    (0 < rtt_tick_delay stats + s.base_input_tick_delay →
      issued < execution_tick issued stats s) := by
  constructor
  · exact Nat.le_trans (Nat.le_add_right _ _) (Nat.le_add_right _ _)
  · intro h
    unfold execution_tick
    rw [Nat.add_assoc]
    exact Nat.lt_add_of_pos_right h

theorem c5_witness :
    0 < rtt_tick_delay none + SimulationSettings.default.base_input_tick_delay ∧
    5 < execution_tick 5 none SimulationSettings.default :=
  ⟨by decide, (c5_amended 5 none SimulationSettings.default).2 (by decide)⟩

/-- C5: the claim quantifies over any RTT value and any settings, but for
a peer with RTT = 0 under settings with `base_input_tick_delay = 0` the
code assigns execute tick = issued tick (5 = 5), not strictly greater. -/
theorem c5_counterexample :
    execution_tick 5 (some 0) zero_delay_settings = 5 ∧
    ¬ (5 < execution_tick 5 (some 0) zero_delay_settings) := by
  have h5 : execution_tick 5 (some 0) zero_delay_settings = 5 := by
    simp [execution_tick, rtt_tick_delay_zero, zero_delay_settings]
  refine ⟨h5, ?_⟩
  rw [h5]
  exact Nat.lt_irrefl 5

/-- C7 (amended): a command submitted by the host-local pseudo-peer (no
`NetworkId` and no `NetworkStats` for the sender entity) is attributed to
client id 1 and assigned execute tick `issued_tick + 3 +
base_input_tick_delay`: the RTT-derived delay defaults to 3 ticks, not 1,
so with `base_input_tick_delay = 1` the command lands 4 ticks after the
submitting tick, stored under peer id 1. -/
theorem c7_amended (ev : ClientSendCommands) (s : SimulationSettings)
    (history : LockstepGameCommandsReceived)
    (buffer : LockstepGameCommandBuffer) :
    (receive_commands_server ev none none s history).2.client_id = 1 ∧
    (receive_commands_server ev none none s history).2.execute_tick
      = ev.issued_tick + 3 + s.base_input_tick_delay ∧
    buffer_entry
      (receive_commands_client
        (receive_commands_server ev none none s history).2 buffer)
      (ev.issued_tick + 3 + s.base_input_tick_delay) 1
      = some ev.commands := by
  refine ⟨rfl, rfl, ?_⟩
  simp only [receive_commands_server, receive_commands_client, buffer_entry,
    execution_tick, rtt_tick_delay, Option.getD_none]
  rw [AssocMap.find?_insert_self]
  simp only [Option.getD_some]
  rw [AssocMap.find?_insert_self]

/-- C7: the claim says the host-local pseudo-peer's RTT-derived delay
defaults to 1 tick, so that with `base_input_tick_delay = 1` a command
submitted at tick 5 would land at tick 7; the code defaults it to 3
(`map_or(3, ...)`), assigns execute tick 9, and broadcast slot 7 stays
empty. -/
theorem c7_counterexample :
    (receive_commands_server ⟨some [cmdX], 5⟩ none none scenario_settings
        AssocMap.empty).2.execute_tick = 9 ∧
    (9 : Nat) ≠ 5 + 2 ∧
    buffer_entry
      (receive_commands_client
        (receive_commands_server ⟨some [cmdX], 5⟩ none none scenario_settings
          AssocMap.empty).2 AssocMap.empty) 7 1 = none := by
  refine ⟨rfl, by decide, rfl⟩

theorem AssocMap.containsKey_of_mem {α β : Type} [DecidableEq α]
    {m : AssocMap α β} {p : α × β} (h : p ∈ m) :
    AssocMap.containsKey m p.1 = true := by
  induction m with
  | nil => cases h
  | cons q rest ih =>
    rcases List.mem_cons.mp h with rfl | hrest
    · simp [AssocMap.containsKey, AssocMap.find?]
    · by_cases hq : q.1 = p.1
      · simp [AssocMap.containsKey, AssocMap.find?, hq]
      · simpa [AssocMap.containsKey, AssocMap.find?, hq] using ih hrest

theorem AssocMap.self_filter_absent {α β : Type} [DecidableEq α]
    (m : AssocMap α β) :
    List.filter (fun p => !(AssocMap.containsKey m p.1)) m = [] := by
  rw [List.filter_eq_nil_iff]
  intro p hp
  simp [AssocMap.containsKey_of_mem hp]

theorem simtick_ne_succ (t : SimTick) : ¬ (t = t + 1) :=
  fun h => Nat.succ_ne_self t h.symm

theorem server_tick_delay_scenario :
    server_tick_delay c2_gate_state.stats c2_gate_state.settings = 2 := by
  show server_tick_delay [(1:ℚ)/10] scenario_settings = 2
  simp only [server_tick_delay, max_rtt, List.foldl_nil, List.length_cons,
    List.length_nil]
  rw [if_pos (Nat.succ_pos 0), ceil_rtt_tenth_half]
  rfl

theorem tick_server_scenario_advances :
    (tick_server c2_gate_state).1.sim_tick = c2_gate_state.sim_tick + 1 := by
  simp only [tick_server, server_tick_delay_scenario]
  rfl

/-- C2: under the spec's gate formula (Δ dividing the half-RTT by the tick
timestep) the gate fails at `c2_gate_state` — T_check would be 7 and the
received-log is empty there — yet the code advances the tick from 10 to
11, because it computes the lookback without the timestep division and
checks tick 8, whose entry covers the one connected peer.  So "advance iff
the spec gate holds" is false. -/
theorem c2_counterexample :
    (tick_server c2_gate_state).1.sim_tick = 11 ∧ ¬ spec_gate c2_gate_state := by
  constructor
  · exact tick_server_scenario_advances
  · have hdelta : (Int.ceil (max_rtt c2_gate_state.stats / 2 /
        c2_gate_state.settings.tick_timestep)).toNat +
        c2_gate_state.settings.connection_check_tick_delay = 3 := by
      show (Int.ceil (max_rtt [(1:ℚ)/10] / 2 / scenario_settings.tick_timestep)).toNat +
        scenario_settings.connection_check_tick_delay = 3
      simp only [max_rtt, List.foldl_nil, scenario_settings]
      rw [ceil_rtt_tenth_spec]
      rfl
    intro h
    rw [spec_gate] at h
    simp only [hdelta] at h
    have h2 := h 2 (by simp [c2_gate_state])
    revert h2
    decide

/-- C2 (amended): on each `Running` scheduler step the host increments its
tick iff the received-log has a bundle recorded at
`T_check = max(0, tick − Δ)` whose entry count equals the number of
connected peers, where `Δ = ceil(max_peer_rtt_seconds/2) +
connection_check_tick_delay` when any peer has stats and `Δ = 0`
otherwise (no division by the tick timestep); on advancing it resets the
disconnect timer and broadcasts the new tick. -/
theorem c2_amended (st : ServerTickState) :
    ((tick_server st).1.sim_tick = st.sim_tick + 1 ↔
      ∃ m, AssocMap.find? st.commands_received
          (tick_to_check st.sim_tick (server_tick_delay st.stats st.settings))
          = some m ∧
        AssocMap.size m = st.clients.length) ∧
    ((tick_server st).1.sim_tick = st.sim_tick + 1 →
      (tick_server st).1.disconnect_timer = 0 ∧
      ∃ b, (tick_server st).2.broadcast = some b ∧ b.tick = st.sim_tick + 1) := by
  simp only [tick_server]
  cases hfind : AssocMap.find? st.commands_received
      (tick_to_check st.sim_tick (server_tick_delay st.stats st.settings)) with
  | none =>
    simp [simtick_ne_succ st.sim_tick]
  | some m =>
    by_cases hsz : AssocMap.size m = st.clients.length
    · cases hhist : st.command_history.get? (st.sim_tick + 1) with
      | some tc => simp [hsz, hhist]
      | none => simp [hsz, hhist]
    · by_cases htimer :
        st.disconnect_timer + 1 > st.settings.disconnect_tick_threshold
      · simp [hsz, htimer, simtick_ne_succ st.sim_tick]
      · simp [hsz, htimer, simtick_ne_succ st.sim_tick]

theorem c2_witness :
    (tick_server c2_gate_state).1.sim_tick = c2_gate_state.sim_tick + 1 ∧
    ((tick_server c2_gate_state).1.disconnect_timer = 0 ∧
      ∃ b, (tick_server c2_gate_state).2.broadcast = some b ∧
        b.tick = c2_gate_state.sim_tick + 1) :=
  ⟨tick_server_scenario_advances,
    (c2_amended c2_gate_state).2 tick_server_scenario_advances⟩

theorem server_tick_delay_scenario_c3 :
    server_tick_delay c3_pause_state.stats c3_pause_state.settings = 2 := by
  show server_tick_delay [(1:ℚ)/10] scenario_settings = 2
  simp only [server_tick_delay, max_rtt, List.foldl_nil, List.length_cons,
    List.length_nil]
  rw [if_pos (Nat.succ_pos 0), ceil_rtt_tenth_half]
  rfl

/-- C3: the pause transition fires, but no `ClientDisconnect` is ever
emitted — in the pause branch the code filters the received bundle
`clients_for_tick` against its own keys (`!clients_for_tick.contains_key`)
instead of filtering the connected-client list, and that predicate is
false for every element, so the emitted list is always empty.  At
`c3_pause_state` the state transitions to `Paused` while connected peer 2
is absent from the checked bundle, yet the disconnect list is `[]` where
the claim requires exactly one `ClientDisconnect(2)`. -/
theorem c3_code_bug :
    (∀ st : ServerTickState, (tick_server st).2.disconnects = []) ∧
    (tick_server c3_pause_state).2.next_state = some SimulationState.Paused ∧
    2 ∈ c3_pause_state.clients ∧
    AssocMap.containsKey
      ((AssocMap.find? c3_pause_state.commands_received 8).getD AssocMap.empty)
      2 = false := by
  refine ⟨?_, ?_, ?_, ?_⟩
  · intro st
    simp only [tick_server]
    cases hfind : AssocMap.find? st.commands_received
        (tick_to_check st.sim_tick (server_tick_delay st.stats st.settings)) with
    | none => rfl
    | some m =>
      by_cases hsz : AssocMap.size m = st.clients.length
      · cases hhist : st.command_history.get? (st.sim_tick + 1) with
        | some tc => simp [hsz, hhist]
        | none => simp [hsz, hhist]
      · by_cases htimer :
          st.disconnect_timer + 1 > st.settings.disconnect_tick_threshold
        · simp [hsz, htimer, AssocMap.self_filter_absent]
        · simp [hsz, htimer]
  · simp only [tick_server, server_tick_delay_scenario_c3]
    rfl
  · decide
  · decide

theorem vec_resize_get_last {α : Type} (v : List α) (n : Nat) (x : α)
    (h : v.length ≤ n) : (vec_resize v (n + 1) x).get? n = some x := by
  unfold vec_resize
  rw [if_pos (Nat.le_succ_of_le h), List.get?_eq_getElem?,
    List.getElem?_append_right h, List.getElem?_replicate]
  rw [if_pos (by omega)]

/-- C6: on a client (server not running), `tick_client` installs the
broadcast bundle at the received tick, sets `SimTick` to that tick, and
emits a `SimulationTickUpdate(tick)` event whenever the tick is `last+1`
or the client is at the post-reset tick 0; any other tick is fatal — the
code panics ("Received ticks out of order") instead of recovering. -/
theorem c6_confirmed :
    (∀ (ev : ServerSendCommandsMsg) (st : ClientTickState),
      st.command_history.length ≤ ev.tick →
      (ev.tick = st.sim_tick + 1 ∨ st.sim_tick = 0) →
      ∃ st2, tick_client false ev st = Except.ok (st2, [ev.tick]) ∧
        st2.sim_tick = ev.tick ∧
        st2.command_history.get? ev.tick = some ev.commands) ∧
    (∀ (ev : ServerSendCommandsMsg) (st : ClientTickState),
      ev.tick ≠ st.sim_tick + 1 → st.sim_tick ≠ 0 →
      tick_client false ev st = Except.error "Received ticks out of order") := by
  constructor
  · intro ev st hlen hseq
    refine ⟨⟨ev.tick, vec_resize st.command_history (ev.tick + 1) ev.commands⟩,
      ?_, rfl, ?_⟩
    · simp [tick_client, hseq]
    · exact vec_resize_get_last _ _ _ hlen
  · intro ev st h1 h2
    simp [tick_client, h1, h2]

theorem c6_witness :
    (([] : List LockstepClientCommands).length ≤ 1 ∧
      ((1 : SimTick) = 0 + 1 ∨ (0 : SimTick) = 0) ∧
      ∃ st2, tick_client false ⟨AssocMap.empty, 1⟩ ⟨0, []⟩
          = Except.ok (st2, [1]) ∧
        st2.sim_tick = 1 ∧ st2.command_history.get? 1 = some AssocMap.empty) ∧
    ((3 : SimTick) ≠ 1 + 1 ∧ (1 : SimTick) ≠ 0 ∧
      tick_client false ⟨AssocMap.empty, 3⟩ ⟨1, []⟩
        = Except.error "Received ticks out of order") :=
  ⟨⟨by decide, Or.inl rfl,
    c6_confirmed.1 ⟨AssocMap.empty, 1⟩ ⟨0, []⟩ (by decide) (Or.inl rfl)⟩,
    by decide, by decide,
    c6_confirmed.2 ⟨AssocMap.empty, 3⟩ ⟨1, []⟩ (by decide) (by decide)⟩

/-- C8: entering `Running` does none of what the claim says — the only
system registered at `OnEnter(Running)` is the eager empty-command
submission; the resources (tick 5, nonempty logs, counter 7) are left
untouched and no `SetState(Running)` is broadcast from that transition. -/
theorem c8_counterexample :
    (on_enter_state SimulationState.Running true c8_resources).1
      = c8_resources ∧
    c8_resources.sim_tick = 5 ∧ (5 : Nat) ≠ 0 ∧
    c8_resources.command_history ≠ AssocMap.empty ∧
    (on_enter_state SimulationState.Running true c8_resources).2
      = [SimOutEvent.clientSendCommands ClientSendCommands.default] := by
  exact ⟨rfl, rfl, by decide, fun h => List.noConfusion h, rfl⟩

/-- C8 (amended): the tick reset to 0, the clearing of both logs and of
the id-entity map, and the reset of the `SimulationId` counter to 1 all
run on entering `Setup` (`OnEnter(Setup)`, i.e. the Connecting→Setup
transition); `SetState(Running)` is broadcast by the host on entering
`Starting`; entering `Running` itself only triggers the eager empty
command submission. -/
theorem c8_amended (b : Bool) (r : SimResources) :
    on_enter_state SimulationState.Setup b r
      = (⟨0, AssocMap.empty, AssocMap.empty, AssocMap.empty, 1⟩, []) ∧
    on_enter_state SimulationState.Starting true r
      = (r, [SimOutEvent.setState SimulationState.Running]) ∧
    on_enter_state SimulationState.Starting false r = (r, []) ∧
    on_enter_state SimulationState.Running b r
      = (r, [SimOutEvent.clientSendCommands ClientSendCommands.default]) :=
  ⟨rfl, rfl, rfl, rfl⟩

/-- C9: while the host sits in `Setup` with the full roster connected,
`check_all_clients_ready` broadcasts `SetState(Starting)` iff every
connected peer carries the `ClientReady` marker; with num_players = 3 and
peer 3 withholding ready forever, the state remains `Setup` at every
scheduler step. -/
theorem c9_confirmed (num_players : Nat) (peers : List (ClientId × Bool))
    (h : peers.length = num_players) :
    (check_all_clients_ready num_players peers
        = Except.ok [SimOutEvent.setState SimulationState.Starting]
      ↔ peers.all (fun p => p.2) = true) ∧
    (∀ n, setup_phase_state 3 withholding_peers n = SimulationState.Setup) := by
  constructor
  · unfold check_all_clients_ready
    rw [if_neg (fun hne => hne h)]
    by_cases hall : peers.all (fun p => p.2) = true
    · simp [hall]
    · simp [hall]
  · intro n
    induction n with
    | zero => rfl
    | succ k ih =>
      simp only [setup_phase_state, ih]
      rfl

theorem c9_witness :
    ([((1 : ClientId), true), (2, true), (3, true)].length = 3) ∧
    ((check_all_clients_ready 3 [((1 : ClientId), true), (2, true), (3, true)]
        = Except.ok [SimOutEvent.setState SimulationState.Starting])
      ↔ ([((1 : ClientId), true), (2, true), (3, true)]).all (fun p => p.2)
          = true) ∧
    (∀ n, setup_phase_state 3 withholding_peers n = SimulationState.Setup) :=
  ⟨rfl, (c9_confirmed 3 [((1 : ClientId), true), (2, true), (3, true)] rfl).1,
    (c9_confirmed 3 [((1 : ClientId), true), (2, true), (3, true)] rfl).2⟩

theorem read_reflect_commands_encode (l : List ReflectCommand)
    (rest : List WireTok) :
    read_reflect_commands l.length (l.map WireTok.reflectPayload ++ rest)
      = some (l, rest) := by
  induction l with
  | nil => rfl
  | cons p ps ih => simp [read_reflect_commands, ih]

theorem read_client_entries_encode
    (cs : List (ClientId × List ReflectCommand)) (rest : List WireTok)
    (h : ∀ p ∈ cs, p.2.length < 65536) :
    read_client_entries cs.length
      ((cs.flatMap fun p =>
          WireTok.u64 p.1 :: WireTok.u16 (p.2.length % 65536)
            :: p.2.map WireTok.reflectPayload) ++ rest)
      = some (cs, rest) := by
  induction cs with
  | nil => rfl
  | cons c cs ih =>
    have hc : c.2.length % 65536 = c.2.length :=
      Nat.mod_eq_of_lt (h c (List.mem_cons_self c cs))
    have hrest : ∀ p ∈ cs, p.2.length < 65536 :=
      fun p hp => h p (List.mem_cons_of_mem c hp)
    simp only [List.length_cons, List.flatMap_cons, List.cons_append,
      List.append_assoc, read_client_entries, read_u64, read_u16, hc,
      read_reflect_commands_encode, ih hrest]

theorem wire_peer_ids_nil : wire_peer_ids [] = [] := rfl

theorem wire_peer_ids_cons_u8 (n : Nat) (rest : List WireTok) :
    wire_peer_ids (WireTok.u8 n :: rest) = wire_peer_ids rest := rfl

theorem wire_peer_ids_cons_u16 (n : Nat) (rest : List WireTok) :
    wire_peer_ids (WireTok.u16 n :: rest) = wire_peer_ids rest := rfl

theorem wire_peer_ids_cons_u32 (n : Nat) (rest : List WireTok) :
    wire_peer_ids (WireTok.u32 n :: rest) = wire_peer_ids rest := rfl

theorem wire_peer_ids_cons_u64 (n : Nat) (rest : List WireTok) :
    wire_peer_ids (WireTok.u64 n :: rest) = n :: wire_peer_ids rest := rfl

theorem wire_peer_ids_payloads (l : List ReflectCommand) (rest : List WireTok) :
    wire_peer_ids (l.map WireTok.reflectPayload ++ rest) = wire_peer_ids rest := by
  induction l with
  | nil => rfl
  | cons p ps ih => simpa [wire_peer_ids] using ih

theorem wire_peer_ids_entries (cs : List (ClientId × List ReflectCommand))
    (rest : List WireTok) :
    wire_peer_ids
      ((cs.flatMap fun p =>
          WireTok.u64 p.1 :: WireTok.u16 (p.2.length % 65536)
            :: p.2.map WireTok.reflectPayload) ++ rest)
      = cs.map (fun p => p.1) ++ wire_peer_ids rest := by
  induction cs with
  | nil => rfl
  | cons c cs ih =>
    simp only [List.flatMap_cons, List.cons_append, List.append_assoc,
      wire_peer_ids_cons_u64, wire_peer_ids_cons_u16, wire_peer_ids_payloads,
      ih, List.map_cons]

/-- C4 (amended): for every bundle with fewer than 256 peers and fewer
than 65536 commands per peer, deserializing the serialization yields the
original bundle with its entry sequence intact; the peer ids on the wire
are exactly the bundle map's iteration order — the serializer performs no
sort, so ascending `peer_id` order holds only when the hash map happens to
iterate in ascending order. -/
theorem c4_amended (e : ServerSendCommandsWire)
    (h1 : e.commands.length < 256)
    (h2 : ∀ p ∈ e.commands, p.2.length < 65536) :
    deserialize_server_send_commands (serialize_server_send_commands e)
      = some e ∧
    wire_peer_ids (serialize_server_send_commands e)
      = e.commands.map (fun p => p.1) := by
  constructor
  · simp only [serialize_server_send_commands, deserialize_server_send_commands,
      List.cons_append, read_u8, Nat.mod_eq_of_lt h1,
      read_client_entries_encode e.commands [WireTok.u32 e.tick] h2, read_u32]
  · simp only [serialize_server_send_commands, List.cons_append,
      wire_peer_ids_cons_u8,
      wire_peer_ids_entries e.commands [WireTok.u32 e.tick],
      wire_peer_ids_cons_u32, wire_peer_ids_nil, List.append_nil]

theorem c4_witness :
    c4_bundle.commands.length < 256 ∧
    (∀ p ∈ c4_bundle.commands, p.2.length < 65536) ∧
    (deserialize_server_send_commands (serialize_server_send_commands c4_bundle)
        = some c4_bundle ∧
      wire_peer_ids (serialize_server_send_commands c4_bundle)
        = c4_bundle.commands.map (fun p => p.1)) :=
  ⟨by decide, by decide, c4_amended c4_bundle (by decide) (by decide)⟩

/-- C4: the serializer emits the peers of `c4_bundle` in the map's
iteration order 2, 1 — not ascending `peer_id` order — because
`serialize_server_send_commands` iterates the hash map without sorting;
the round trip still returns the bundle as iterated. -/
theorem c4_counterexample :
    wire_peer_ids (serialize_server_send_commands c4_bundle) = [2, 1] ∧
    ¬ List.Sorted (· ≤ ·)
        (wire_peer_ids (serialize_server_send_commands c4_bundle)) ∧
    deserialize_server_send_commands (serialize_server_send_commands c4_bundle)
      = some c4_bundle := by
  refine ⟨by decide, ?_, by decide⟩
  intro h
  rw [show wire_peer_ids (serialize_server_send_commands c4_bundle) = [2, 1]
    from by decide] at h
  exact absurd (List.rel_of_sorted_cons h 1 (List.mem_singleton.mpr rfl))
    (by decide)

theorem registry_loop_name_skip (names : List String) :
    ∀ (m : String), m ∉ names →
    ∀ (i : Nat) (n2i : AssocMap String Nat) (i2n : AssocMap Nat String),
      AssocMap.find? (registry_new_loop i names n2i i2n).name_to_id m
        = AssocMap.find? n2i m := by
  induction names with
  | nil => intro m _ i n2i i2n; rfl
  | cons name rest ih =>
    intro m hm i n2i i2n
    have hne : m ≠ name := fun e => hm (e ▸ List.mem_cons_self name rest)
    have hrest : m ∉ rest := fun e => hm (List.mem_cons_of_mem name e)
    simp only [registry_new_loop]
    rw [ih m hrest, AssocMap.find?_insert_ne _ _ _ _ hne]

theorem registry_loop_name_at (names : List String) :
    ∀ (hnd : names.Nodup) (i j : Nat) (m : String), names.get? j = some m →
    ∀ (n2i : AssocMap String Nat) (i2n : AssocMap Nat String),
      AssocMap.find? (registry_new_loop i names n2i i2n).name_to_id m
        = some ((i + j) % 65536) := by
  induction names with
  | nil => intro _ i j m hj; cases hj
  | cons name rest ih =>
    intro hnd i j m hj n2i i2n
    cases j with
    | zero =>
      rw [List.get?_cons_zero] at hj
      have hm : name = m := Option.some.inj hj
      subst hm
      simp only [registry_new_loop]
      rw [registry_loop_name_skip rest name (List.nodup_cons.mp hnd).1,
        AssocMap.find?_insert_self, Nat.add_zero]
    | succ j' =>
      rw [List.get?_cons_succ] at hj
      simp only [registry_new_loop]
      rw [ih (List.nodup_cons.mp hnd).2 (i + 1) j' m hj]
      congr 1
      omega

theorem registry_loop_snoc (l : List String) (x : String) :
    ∀ (i : Nat) (n2i : AssocMap String Nat) (i2n : AssocMap Nat String),
      registry_new_loop i (l ++ [x]) n2i i2n
        = ⟨AssocMap.insert (registry_new_loop i l n2i i2n).name_to_id x
              ((i + l.length) % 65536),
            AssocMap.insert (registry_new_loop i l n2i i2n).id_to_name
              ((i + l.length) % 65536) x⟩ := by
  induction l with
  | nil =>
    intro i n2i i2n
    simp [registry_new_loop]
  | cons y ys ih =>
    intro i n2i i2n
    have harith : i + 1 + ys.length = i + (ys.length + 1) := by omega
    calc registry_new_loop i ((y :: ys) ++ [x]) n2i i2n
        = registry_new_loop (i + 1) (ys ++ [x])
            (AssocMap.insert n2i y (i % 65536))
            (AssocMap.insert i2n (i % 65536) y) := rfl
      _ = _ := by
          rw [ih]
          simp only [registry_new_loop, List.length_cons, harith]

theorem registry_get_name_eval (order : List String) :
    order.length ≤ 65536 →
    ∀ k, (CommandTypeRegistry.new order).get_name k = order.get? k := by
  induction order using List.reverseRecOn with
  | nil => intro _ k; rfl
  | append_singleton l x ih =>
    intro hlen k
    have hl : l.length < 65536 := by
      rw [List.length_append, List.length_singleton] at hlen
      omega
    show AssocMap.find?
      (registry_new_loop 0 (l ++ [x]) AssocMap.empty AssocMap.empty).id_to_name k
      = (l ++ [x]).get? k
    rw [registry_loop_snoc]
    simp only [Nat.zero_add, Nat.mod_eq_of_lt hl]
    by_cases hk : k = l.length
    · subst hk
      rw [AssocMap.find?_insert_self, List.get?_concat_length]
    · rw [AssocMap.find?_insert_ne _ _ _ _ hk]
      have hstep : AssocMap.find?
          (registry_new_loop 0 l AssocMap.empty AssocMap.empty).id_to_name k
          = l.get? k := ih (by omega) k
      rw [hstep]
      by_cases hlt : k < l.length
      · rw [List.get?_append hlt]
      · rw [List.get?_eq_none.mpr (by omega),
          List.get?_eq_none.mpr (by rw [List.length_append, List.length_singleton]; omega)]

theorem registry_get_id_not_mem (order : List String) (m : String)
    (hm : m ∉ order) : (CommandTypeRegistry.new order).get_id m = none :=
  registry_loop_name_skip order m hm 0 AssocMap.empty AssocMap.empty

theorem registry_get_id_at (order : List String) (hnd : order.Nodup)
    (hlen : order.length ≤ 65536) (j : Nat) (m : String)
    (hj : order.get? j = some m) :
    (CommandTypeRegistry.new order).get_id m = some j := by
  have hjlen : j < order.length := by
    rcases List.get?_eq_some.mp hj with ⟨h, _⟩
    exact h
  have hmain := registry_loop_name_at order hnd 0 j m hj
    AssocMap.empty AssocMap.empty
  rw [Nat.zero_add, Nat.mod_eq_of_lt (by omega)] at hmain
  exact hmain

theorem registry_get_id_inv (order : List String) (hnd : order.Nodup)
    (hlen : order.length ≤ 65536) (m : String) (i : Nat)
    (h : (CommandTypeRegistry.new order).get_id m = some i) :
    order.get? i = some m := by
  by_cases hm : m ∈ order
  · rcases List.mem_iff_get?.mp hm with ⟨j, hj⟩
    have hat := registry_get_id_at order hnd hlen j m hj
    rw [h] at hat
    rw [Option.some.inj hat]
    exact hj
  · rw [registry_get_id_not_mem order m hm] at h
    cases h

/-- C10 (amended): for every duplicate-free hash-set iteration order of at
most 65536 distinct names, the assigned ids are exactly 0..n−1 (`get_name`
is defined precisely on ids below n), distinct names receive distinct ids,
and `get_id` / `get_name` are mutually inverse; the particular assignment
is not a function of the name set alone — the two iteration orders of
the same two names a, b assign a the ids 0 and 1 respectively.  (With
more than 65536 distinct names the `i as u16` cast truncates ids and the
inverse property fails; see the counterexample.) -/
theorem c10_amended (order : List String) (hnd : order.Nodup)
    (hlen : order.length ≤ 65536) :
    (∀ k, ((CommandTypeRegistry.new order).get_name k).isSome = true
      ↔ k < order.length) ∧
    (∀ m1 m2 i, (CommandTypeRegistry.new order).get_id m1 = some i →
      (CommandTypeRegistry.new order).get_id m2 = some i → m1 = m2) ∧
    (∀ m i, (CommandTypeRegistry.new order).get_id m = some i →
      (CommandTypeRegistry.new order).get_name i = some m) ∧
    (∀ i m, (CommandTypeRegistry.new order).get_name i = some m →
      (CommandTypeRegistry.new order).get_id m = some i) ∧
    (CommandTypeRegistry.new ["a", "b"]).get_id "a" = some 0 ∧
    (CommandTypeRegistry.new ["b", "a"]).get_id "a" = some 1 ∧
    List.Perm ["a", "b"] ["b", "a"] := by
  refine ⟨?_, ?_, ?_, ?_, by decide, by decide, List.Perm.swap "b" "a" []⟩
  · intro k
    rw [registry_get_name_eval order hlen k]
    constructor
    · intro hs
      by_contra hlt
      rw [List.get?_eq_none.mpr (by omega)] at hs
      cases hs
    · intro hlt
      rw [List.get?_eq_get hlt]
      rfl
  · intro m1 m2 i h1 h2
    have e1 := registry_get_id_inv order hnd hlen m1 i h1
    have e2 := registry_get_id_inv order hnd hlen m2 i h2
    exact Option.some.inj (e1.symm.trans e2)
  · intro m i h
    rw [registry_get_name_eval order hlen i]
    exact registry_get_id_inv order hnd hlen m i h
  · intro i m h
    rw [registry_get_name_eval order hlen i] at h
    exact registry_get_id_at order hnd hlen i m h

theorem c10_witness :
    (["a", "b"] : List String).Nodup ∧
    (["a", "b"] : List String).length ≤ 65536 ∧
    ((∀ k, ((CommandTypeRegistry.new ["a", "b"]).get_name k).isSome = true
        ↔ k < (["a", "b"] : List String).length) ∧
      (∀ m1 m2 i, (CommandTypeRegistry.new ["a", "b"]).get_id m1 = some i →
        (CommandTypeRegistry.new ["a", "b"]).get_id m2 = some i → m1 = m2) ∧
      (∀ m i, (CommandTypeRegistry.new ["a", "b"]).get_id m = some i →
        (CommandTypeRegistry.new ["a", "b"]).get_name i = some m) ∧
      (∀ i m, (CommandTypeRegistry.new ["a", "b"]).get_name i = some m →
        (CommandTypeRegistry.new ["a", "b"]).get_id m = some i) ∧
      (CommandTypeRegistry.new ["a", "b"]).get_id "a" = some 0 ∧
      (CommandTypeRegistry.new ["b", "a"]).get_id "a" = some 1 ∧
      List.Perm ["a", "b"] ["b", "a"]) :=
  ⟨by decide, by decide, c10_amended ["a", "b"] (by decide) (by decide)⟩

theorem rep_name_inj : Function.Injective rep_name := by
  intro a b h
  have hd : List.replicate a 'a' = List.replicate b 'a' := congrArg String.data h
  have hlen := congrArg List.length hd
  simpa using hlen

theorem big_name_list_nodup : big_name_list.Nodup :=
  (List.nodup_range 65537).map rep_name_inj

/-- C10: with 65537 distinct names (one more than the number of distinct
u16 values) the `i as u16` cast truncates: name number 65536 is also
assigned id 0 and overwrites the id-to-name binding of name number 0, so
`get_id` maps the empty name to 0 while `get_name 0` returns the 65536-th
name — the claimed inverse property fails, refuting the claim for this
input list. -/
theorem c10_counterexample :
    big_registry.get_id (rep_name 0) = some 0 ∧
    big_registry.get_name 0 = some (rep_name 65536) ∧
    rep_name 65536 ≠ rep_name 0 := by
  refine ⟨?_, ?_, fun h => absurd (rep_name_inj h) (by decide)⟩
  · have hget : big_name_list.get? 0 = some (rep_name 0) := by
      rw [big_name_list, List.get?_map, List.get?_range (by decide)]
      rfl
    have hmain := registry_loop_name_at big_name_list big_name_list_nodup 0 0
      (rep_name 0) hget AssocMap.empty AssocMap.empty
    simpa using hmain
  · have hsplit : big_name_list
        = ((List.range 65536).map rep_name) ++ [rep_name 65536] := by
      rw [big_name_list, List.range_succ, List.map_append, List.map_singleton]
    show AssocMap.find?
      (registry_new_loop 0 big_name_list AssocMap.empty AssocMap.empty).id_to_name
      0 = some (rep_name 65536)
    rw [hsplit, registry_loop_snoc]
    simp only [List.length_map, List.length_range, Nat.zero_add]
    rw [show (65536 : Nat) % 65536 = 0 from by decide]
    exact AssocMap.find?_insert_self _ _ _
